import Mathlib

/-!
A shallow embedding of the ESLint rule `destructuring-assignment`
(`lib/rules/destructuring-assignment.js` of eslint-plugin-react).

The rule is a stateful visitor over a syntax tree.  We embed it as a
step function over an explicit rule state (`RState`): the SFC parameter
stack (`sfcParams` in the source), the set of identifiers bound to
`useContext` calls (`contextSet`), and the list of emitted reports.
External collaborators (the component registry, scope resolution, the
React version predicate) are modelled as fields carried on the embedded
nodes / configuration, holding the answers the host would give.
-/

namespace DestructuringAssignment

/-- Lint mode: the first positional option, `'always'` (default) or `'never'`. -/
inductive Mode
  | always
  | never
deriving DecidableEq, Repr

/-- The `destructureInSignature` option: `'always'` or `'ignore'` (default). -/
inductive SigOpt
  | sigAlways
  | sigIgnore
deriving DecidableEq, Repr

/-- Rule configuration together with the host's answer to the React
version query `testReactVersion(context, '>= 16.9')` (`hasHooks`). -/
structure Config where
  mode : Mode
  ignoreClassFields : Bool
  destructureInSignature : SigOpt
  hasHooks : Bool
deriving DecidableEq, Repr

/-- A function parameter node, as far as `evalParams` inspects it:
an `Identifier`, an `ObjectPattern`, or anything else. -/
inductive ParamNode
  | identPat (name : String)
  | objectPat
  | otherPat
deriving DecidableEq, Repr

/-- Result of `evalParams` for one parameter:
`destructuring = (param.type === 'ObjectPattern')` and
`name = (param.type === 'Identifier' && param.name)` (absent otherwise). -/
structure ParamDescriptor where
  destructuring : Bool
  name : Option String
deriving DecidableEq, Repr

/-- `evalParams(params)` from the source: map each parameter to its descriptor. -/
def evalParams (params : List ParamNode) : List ParamDescriptor :=
  params.map fun p =>
    { destructuring := match p with | .objectPat => true | _ => false
      name := match p with | .identPat n => some n | _ => none }

/-- One frame of the SFC parameter stack: the descriptor list of one
tracked component function. -/
abbrev Frame := List ParamDescriptor

/-- `sfcParams.push(params)` — `queue.unshift(params)`: insert at the front. -/
def sfcPush (q : List Frame) (f : Frame) : List Frame := f :: q

/-- `sfcParams.pop()` — `queue.shift()`: drop the front frame. -/
def sfcPop (q : List Frame) : List Frame := q.tail

/-- `sfcParams.propsName()`: find the first (most recently pushed) frame
whose slot 0 is a non-destructuring parameter with a name, and return
that name. -/
def propsName (q : List Frame) : Option String :=
  match q.find? (fun params =>
      match params[0]? with
      | some props => !props.destructuring && props.name.isSome
      | none => false) with
  | some found =>
      match found[0]? with
      | some props => props.name
      | none => none
  | none => none

/-- `sfcParams.contextName()`: the same scan over slot 1. -/
def contextName (q : List Frame) : Option String :=
  match q.find? (fun params =>
      match params[1]? with
      | some ctx => !ctx.destructuring && ctx.name.isSome
      | none => false) with
  | some found =>
      match found[1]? with
      | some ctx => ctx.name
      | none => none
  | none => none

/-- The fixed catalog of message ids (`messages` in the source). -/
inductive MessageId
  | noDestructPropsInSFCArg
  | noDestructContextInSFCArg
  | noDestructAssignment
  | useDestructAssignment
  | destructureInSignature
deriving DecidableEq, Repr

/-- One text edit returned by a fixer: `fixer.replaceTextRange` or
`fixer.remove` (of the node with the given id). -/
inductive Edit
  | replaceRange (lo hi : Nat) (text : String)
  | removeNode (nodeId : Nat)
deriving DecidableEq, Repr

/-- One emitted violation.  Reports made through the `report` helper carry
a `messageId` from the catalog; the two inline `context.report` calls in
the source carry only a `message` string (`messageId = none`).  `data` is
the `{{type}}` interpolation value, `fix` the edits the fixer would
return (none when it has no fix or the fixer returns nothing). -/
structure Report where
  nodeId : Nat
  messageId : Option MessageId
  message : String
  data : Option String
  fix : Option (List Edit)
deriving DecidableEq, Repr

/-- The rule's mutable state during one traversal. -/
structure RState where
  sfcParams : List Frame
  contextSet : List String
  reports : List Report
deriving DecidableEq, Repr

/-- The state at the start of a file's traversal: everything empty. -/
def initState : RState := ⟨[], [], []⟩

/-- A function-like node (`FunctionDeclaration`, `ArrowFunctionExpression`
or `FunctionExpression`) with the host's classifier answers:
`scopeBlockComponent` is `components.get(context.getScope(node).block)`
being truthy, `selfComponent` is `components.get(node)` being truthy. -/
structure FuncNode where
  nodeId : Nat
  params : List ParamNode
  scopeBlockComponent : Bool
  selfComponent : Bool
deriving DecidableEq, Repr

/-- The object of a member expression, as far as the rule inspects it:
a plain identifier, a member access on `this` (with the property name
when it is an uncomputed identifier), or anything else. -/
inductive ObjExpr
  | ident (name : String)
  | thisMember (prop : Option String)
  | other
deriving DecidableEq, Repr

/-- `node.object.name`: present only when the object is an identifier. -/
def objName : ObjExpr → Option String
  | .ident n => some n
  | _ => none

/-- A `MemberExpression` node with the host's answers:
`isAssignLHS` is `isAssignmentLHS(node)`; `scopeChainComponents` lists,
innermost first, whether each scope's block on the enclosing chain is a
tracked component; `classComponent` is `utils.getParentComponent(node)`
being truthy; `ancestorTypes` are the `parent` chain node types. -/
structure MemberNode where
  nodeId : Nat
  obj : ObjExpr
  isAssignLHS : Bool
  scopeChainComponents : List Bool
  classComponent : Bool
  ancestorTypes : List String
deriving DecidableEq, Repr

/-- The binding pattern of a variable declarator (`node.id`); an
`ObjectPattern` carries its source text (`getSourceCode().getText(node.id)`). -/
inductive IdPat
  | objectPattern (text : String)
  | identifier (name : String)
  | otherId
deriving DecidableEq, Repr

/-- A declarator initializer, as far as the rule inspects it: an
identifier (has `.name`), a call (has `.callee`, whose name is present
when the callee is an identifier), a member access on `this` (has
`.object`/`.property`), or anything else. -/
inductive InitExpr
  | ident (name : String)
  | call (calleeName : Option String)
  | thisMember (prop : Option String)
  | otherInit
deriving DecidableEq, Repr

/-- Range data of the component's first parameter, used by the
`destructureInSignature` fixer: `param.range[0]`, `param.range[1]`, and
`param.typeAnnotation.range[0]` when a type annotation exists. -/
structure ParamRange where
  start : Nat
  stop : Nat
  typeAnnStart : Option Nat
deriving DecidableEq, Repr

/-- A `VariableDeclarator` node with the host's answers:
`sfcComponent` is `components.get(context.getScope(node).block)` being
truthy, `classComponent` is `utils.getParentComponent(node)`;
`parentIsClassField` is `node.parent.type` being `ClassProperty` or
`PropertyDefinition`; `propsRefs` is the length of the reference list of
the `props` variable of the current scope (`none` when the scope has no
such variable); `componentFirstParam` is `SFCComponent.node.params[0]`. -/
structure DeclNode where
  nodeId : Nat
  parentId : Nat
  idPat : IdPat
  init : Option InitExpr
  sfcComponent : Bool
  classComponent : Bool
  parentIsClassField : Bool
  propsRefs : Option Nat
  componentFirstParam : Option ParamRange
deriving DecidableEq, Repr

/-- Append one report. -/
def emit (st : RState) (r : Report) : RState :=
  { st with reports := st.reports ++ [r] }

/-- `handleStatelessComponent(node)`: push the evaluated parameters when
the scope block is a tracked component, then (if/else-if) report
destructured props or context arguments under `never`. -/
def handleStatelessComponent (cfg : Config) (node : FuncNode) (st : RState) : RState :=
  let params := evalParams node.params
  if !node.scopeBlockComponent then st
  else
    let st1 := { st with sfcParams := sfcPush st.sfcParams params }
    if (match params[0]? with | some p => p.destructuring | none => false)
        && node.selfComponent && cfg.mode == Mode.never then
      emit st1 ⟨node.nodeId, some MessageId.noDestructPropsInSFCArg,
        "Must never use destructuring props assignment in SFC argument", none, none⟩
    else if (match params[1]? with | some p => p.destructuring | none => false)
        && node.selfComponent && cfg.mode == Mode.never then
      emit st1 ⟨node.nodeId, some MessageId.noDestructContextInSFCArg,
        "Must never use destructuring context assignment in SFC argument", none, none⟩
    else st1

/-- `handleStatelessComponentExit(node)`: pop one frame when the scope
block is a tracked component. -/
def handleStatelessComponentExit (node : FuncNode) (st : RState) : RState :=
  if node.scopeBlockComponent then { st with sfcParams := sfcPop st.sfcParams } else st

/-- `handleSFCUsage(node)`: report non-destructured use of the tracked
props/context name, and of any name in `contextSet` (the latter through
an inline `context.report`, so without a message id). -/
def handleSFCUsage (cfg : Config) (node : MemberNode) (st : RState) : RState :=
  let pName := propsName st.sfcParams
  let cName := contextName st.sfcParams
  let isPropUsed :=
    ((match pName, objName node.obj with | some p, some o => p == o | _, _ => false)
      || (match cName, objName node.obj with | some c, some o => c == o | _, _ => false))
    && !node.isAssignLHS
  let st1 :=
    if isPropUsed && cfg.mode == Mode.always then
      emit st ⟨node.nodeId, some MessageId.useDestructAssignment,
        "Must use destructuring \x7b\x7btype\x7d\x7d assignment", objName node.obj, none⟩
    else st
  match objName node.obj with
  | some o =>
      if st1.contextSet.contains o && !node.isAssignLHS && cfg.mode == Mode.always then
        emit st1 ⟨node.nodeId, none,
          "Must use destructuring " ++ o ++ " assignment", none, none⟩
      else st1
  | none => st1

/-- `isInClassProperty(node)`: walk the parent chain for a
`ClassProperty` or `PropertyDefinition` node. -/
def isInClassProperty (ancestorTypes : List String) : Bool :=
  ancestorTypes.any fun t => t == "ClassProperty" || t == "PropertyDefinition"

/-- `handleClassUsage(node)`: report non-destructured use of
`this.props` / `this.context` / `this.state` under `always`, except in
class fields when `ignoreClassFields` is set. -/
def handleClassUsage (cfg : Config) (node : MemberNode) (st : RState) : RState :=
  let isPropUsed :=
    (match node.obj with
     | .thisMember (some p) => p == "props" || p == "context" || p == "state"
     | _ => false)
    && !node.isAssignLHS
  if isPropUsed && cfg.mode == Mode.always
      && !(cfg.ignoreClassFields && isInClassProperty node.ancestorTypes) then
    emit st ⟨node.nodeId, some MessageId.useDestructAssignment,
      "Must use destructuring \x7b\x7btype\x7d\x7d assignment",
      (match node.obj with | .thisMember p => p | _ => none), none⟩
  else st

/-- The `MemberExpression` visitor: the scope-chain walk finds a tracked
SFC component if any scope block on the chain is one; then the SFC and
class checks run. -/
def memberExpression (cfg : Config) (node : MemberNode) (st : RState) : RState :=
  let sfc := node.scopeChainComponents.any fun b => b
  let st1 := if sfc then handleSFCUsage cfg node st else st
  if node.classComponent then handleClassUsage cfg node st1 else st1

/-- `node.init.callee && node.init.callee.name`, as an option. -/
def initCalleeName : Option InitExpr → Option String
  | some (.call (some c)) => some c
  | _ => none

/-- `destructuring` in the `VariableDeclarator` visitor:
`node.init && node.id && node.id.type === 'ObjectPattern'`. -/
def vdDestructuring (node : DeclNode) : Bool :=
  node.init.isSome && (match node.idPat with | .objectPattern _ => true | _ => false)

/-- `identifier` in the `VariableDeclarator` visitor:
`node.init && node.id && node.id.type === 'Identifier'`. -/
def vdIdentifier (node : DeclNode) : Bool :=
  node.init.isSome && (match node.idPat with | .identifier _ => true | _ => false)

/-- `destructuringSFC`: `let {foo} = props`. -/
def vdDestructuringSFC (node : DeclNode) : Bool :=
  vdDestructuring node
    && (match node.init with | some (.ident n) => n == "props" | _ => false)

/-- `destructuringUseContext`: `let {foo} = useContext(aContext)`,
gated on `hasHooks`. -/
def vdDestructuringUseContext (cfg : Config) (node : DeclNode) : Bool :=
  cfg.hasHooks && vdDestructuring node
    && (match initCalleeName node.init with | some c => c == "useContext" | none => false)

/-- `assignUseContext`: `let foo = useContext(aContext)`, gated on
`hasHooks`. -/
def vdAssignUseContext (cfg : Config) (node : DeclNode) : Bool :=
  cfg.hasHooks && vdIdentifier node
    && (match initCalleeName node.init with | some c => c == "useContext" | none => false)

/-- `destructuringClass`: `let {foo} = this.props` (or `.context`, `.state`). -/
def vdDestructuringClass (node : DeclNode) : Bool :=
  vdDestructuring node
    && (match node.init with
        | some (.thisMember (some p)) => p == "props" || p == "context" || p == "state"
        | _ => false)

/-- First step of the `VariableDeclarator` visitor: record the bound
name in `contextSet` when an identifier is assigned a `useContext` call
inside an SFC component (no mode check on this insertion). -/
def vdContextAdd (cfg : Config) (node : DeclNode) (st : RState) : RState :=
  if node.sfcComponent && vdAssignUseContext cfg node then
    { st with contextSet :=
        match node.idPat with
        | .identifier n =>
            if st.contextSet.contains n then st.contextSet else n :: st.contextSet
        | _ => st.contextSet }
  else st

/-- Second step: under `never`, the inline `context.report` for
`let {foo} = useContext(aContext)` (no message id). -/
def vdUseContextReport (cfg : Config) (node : DeclNode) (st : RState) : RState :=
  if node.sfcComponent && vdDestructuringUseContext cfg node && cfg.mode == Mode.never then
    emit st ⟨node.nodeId, none,
      "Must never use destructuring " ++ ((initCalleeName node.init).getD "") ++ " assignment",
      none, none⟩
  else st

/-- Third step: under `never`, report `let {foo} = props` in an SFC
component. -/
def vdSFCReport (cfg : Config) (node : DeclNode) (st : RState) : RState :=
  if node.sfcComponent && vdDestructuringSFC node && cfg.mode == Mode.never then
    emit st ⟨node.nodeId, some MessageId.noDestructAssignment,
      "Must never use destructuring \x7b\x7btype\x7d\x7d assignment",
      (match node.init with | some (.ident n) => some n | _ => none), none⟩
  else st

/-- Fourth step: under `never`, report `let {foo} = this.props` in a
class component, unless it is an ignored class field. -/
def vdClassReport (cfg : Config) (node : DeclNode) (st : RState) : RState :=
  if node.classComponent && vdDestructuringClass node && cfg.mode == Mode.never
      && !(cfg.ignoreClassFields && node.parentIsClassField) then
    emit st ⟨node.nodeId, some MessageId.noDestructAssignment,
      "Must never use destructuring \x7b\x7btype\x7d\x7d assignment",
      (match node.init with | some (.thisMember p) => p | _ => none), none⟩
  else st

/-- The edits the `destructureInSignature` fixer returns: replace the
first parameter from its start to the start of its type annotation (or
its end) with the text of the destructured pattern, and remove the
declaration (`node.parent`); nothing when the component has no first
parameter. -/
def vdSignatureFix (node : DeclNode) : Option (List Edit) :=
  match node.componentFirstParam with
  | none => none
  | some pr =>
      some [Edit.replaceRange pr.start
              (match pr.typeAnnStart with | some t => t | none => pr.stop)
              (match node.idPat with
               | .objectPattern txt => txt
               | .identifier n => n
               | .otherId => ""),
            Edit.removeNode node.parentId]

/-- Fifth step: under `always` with `destructureInSignature: 'always'`,
report `let {foo} = props`, offering the signature rewrite, but only
when the scope has a `props` variable with at most one reference. -/
def vdSignatureReport (cfg : Config) (node : DeclNode) (st : RState) : RState :=
  if node.sfcComponent && vdDestructuringSFC node && cfg.mode == Mode.always
      && cfg.destructureInSignature == SigOpt.sigAlways
      && (match node.init with | some (.ident n) => n == "props" | _ => false) then
    match node.propsRefs with
    | none => st
    | some refs =>
        if refs > 1 then st
        else
          emit st ⟨node.nodeId, some MessageId.destructureInSignature,
            "Must destructure props in the function signature.", none, vdSignatureFix node⟩
  else st

/-- The `VariableDeclarator` visitor: the five steps in source order. -/
def variableDeclarator (cfg : Config) (node : DeclNode) (st : RState) : RState :=
  vdSignatureReport cfg node
    (vdClassReport cfg node
      (vdSFCReport cfg node
        (vdUseContextReport cfg node
          (vdContextAdd cfg node st))))

/-- A traversal event dispatched by the visitor engine. -/
inductive Event
  | funcEnter (n : FuncNode)
  | funcExit (n : FuncNode)
  | member (m : MemberNode)
  | varDecl (d : DeclNode)
deriving DecidableEq, Repr

/-- Process one traversal event. -/
def step (cfg : Config) (st : RState) (ev : Event) : RState :=
  match ev with
  | .funcEnter n => handleStatelessComponent cfg n st
  | .funcExit n => handleStatelessComponentExit n st
  | .member m => memberExpression cfg m st
  | .varDecl d => variableDeclarator cfg d st

/-- Run the whole traversal of one file from the empty state. -/
def run (cfg : Config) (evs : List Event) : RState :=
  evs.foldl (step cfg) initState

/-- Specification-side reading of `propsName`/`contextName`: the name of
the frontmost frame whose given slot is a non-destructuring plain
identifier slot, absent when no frame has one. -/
def specFrontName (slot : Nat) : List Frame → Option String
  | [] => none
  | f :: rest =>
      match f[slot]? with
      | some { destructuring := false, name := some n } => some n
      | _ => specFrontName slot rest

lemma emit_sfcParams (st : RState) (r : Report) : (emit st r).sfcParams = st.sfcParams := rfl

lemma emit_contextSet (st : RState) (r : Report) : (emit st r).contextSet = st.contextSet := rfl

lemma propsName_eq_specFrontName (q : List Frame) : propsName q = specFrontName 0 q := by
  induction q with
  | nil => rfl
  | cons f rest ih =>
      rcases hf : f[0]? with _ | ⟨d, nm⟩
      · have : (match f[0]? with
            | some props => !props.destructuring && props.name.isSome
            | none => false) = false := by rw [hf]
        simp only [propsName, List.find?_cons, this, specFrontName, hf]
        exact ih
      · cases d
        · cases nm with
          | none =>
              have : (match f[0]? with
                  | some props => !props.destructuring && props.name.isSome
                  | none => false) = false := by rw [hf]; rfl
              simp only [propsName, List.find?_cons, this, specFrontName, hf]
              exact ih
          | some n =>
              simp only [propsName, List.find?_cons, specFrontName, hf]
              simp [hf]
        · have : (match f[0]? with
              | some props => !props.destructuring && props.name.isSome
              | none => false) = false := by rw [hf]; rfl
          simp only [propsName, List.find?_cons, this, specFrontName, hf]
          cases nm <;> exact ih

lemma contextName_eq_specFrontName (q : List Frame) : contextName q = specFrontName 1 q := by
  induction q with
  | nil => rfl
  | cons f rest ih =>
      rcases hf : f[1]? with _ | ⟨d, nm⟩
      · have : (match f[1]? with
            | some ctx => !ctx.destructuring && ctx.name.isSome
            | none => false) = false := by rw [hf]
        simp only [contextName, List.find?_cons, this, specFrontName, hf]
        exact ih
      · cases d
        · cases nm with
          | none =>
              have : (match f[1]? with
                  | some ctx => !ctx.destructuring && ctx.name.isSome
                  | none => false) = false := by rw [hf]; rfl
              simp only [contextName, List.find?_cons, this, specFrontName, hf]
              exact ih
          | some n =>
              simp only [contextName, List.find?_cons, specFrontName, hf]
              simp [hf]
        · have : (match f[1]? with
              | some ctx => !ctx.destructuring && ctx.name.isSome
              | none => false) = false := by rw [hf]; rfl
          simp only [contextName, List.find?_cons, this, specFrontName, hf]
          cases nm <;> exact ih

/-- C5: `propsName()` (resp. `contextName()`) returns the name of the
frontmost (most recently entered) frame whose props (resp. context) slot
is a non-destructuring plain identifier with a name, and is absent when
no frame has such a slot; a destructuring slot never supplies a name
(the specification-side scan only reads names from slots with
`destructuring = false`). -/
theorem c5_name_resolution_frontmost (q : List Frame) :
    propsName q = specFrontName 0 q ∧ contextName q = specFrontName 1 q :=
  ⟨propsName_eq_specFrontName q, contextName_eq_specFrontName q⟩

/-- C7: a member access that is an assignment target is never flagged by
any of the member-access checks: the `MemberExpression` visitor leaves
the state (in particular the report list) unchanged. -/
theorem c7_assignment_targets_never_flagged (cfg : Config) (m : MemberNode) (st : RState)
    (hlhs : m.isAssignLHS = true) :
    memberExpression cfg m st = st := by
  cases hobj : m.obj <;>
    simp [memberExpression, handleSFCUsage, handleClassUsage, hlhs, hobj, objName]

/-- C7 witness: at a concrete assignment-target access the visitor
leaves a concrete state unchanged. -/
theorem c7_assignment_targets_never_flagged_witness :
    memberExpression ⟨Mode.always, false, SigOpt.sigIgnore, true⟩
      ⟨5, ObjExpr.ident "props", true, [true], true, []⟩
      ⟨[[⟨false, some "props"⟩]], ["foo"], []⟩
      = ⟨[[⟨false, some "props"⟩]], ["foo"], []⟩ :=
  c7_assignment_targets_never_flagged _ _ _ rfl

/-- An event that makes the enter handler push: a function-enter whose
scope block the classifier recognises as a tracked component. -/
def isTrackedEnter : Event → Bool
  | .funcEnter n => n.scopeBlockComponent
  | _ => false

/-- An event that makes the exit handler pop: a function-exit whose
scope block the classifier recognises as a tracked component. -/
def isTrackedExit : Event → Bool
  | .funcExit n => n.scopeBlockComponent
  | _ => false

/-- Well-nestedness of an event sequence relative to a current depth of
open tracked functions: every tracked exit closes a tracked function
that is still open. -/
def wellNested (d : Nat) : List Event → Bool
  | [] => true
  | ev :: rest =>
      if isTrackedEnter ev then wellNested (d + 1) rest
      else if isTrackedExit ev then decide (0 < d) && wellNested (d - 1) rest
      else wellNested d rest

lemma handleStatelessComponent_sfcParams (cfg : Config) (n : FuncNode) (st : RState) :
    (handleStatelessComponent cfg n st).sfcParams =
      if n.scopeBlockComponent then evalParams n.params :: st.sfcParams else st.sfcParams := by
  unfold handleStatelessComponent
  cases hn : n.scopeBlockComponent
  · simp [hn]
  · simp only [hn, Bool.not_true, Bool.false_eq_true, if_false, if_true]
    split
    · rfl
    · split <;> rfl

lemma handleStatelessComponentExit_sfcParams (n : FuncNode) (st : RState) :
    (handleStatelessComponentExit n st).sfcParams =
      if n.scopeBlockComponent then st.sfcParams.tail else st.sfcParams := by
  unfold handleStatelessComponentExit
  split <;> rfl

lemma handleSFCUsage_sfcParams (cfg : Config) (m : MemberNode) (st : RState) :
    (handleSFCUsage cfg m st).sfcParams = st.sfcParams := by
  simp only [handleSFCUsage]
  split
  · split <;> split <;> rfl
  · split <;> rfl

lemma handleClassUsage_sfcParams (cfg : Config) (m : MemberNode) (st : RState) :
    (handleClassUsage cfg m st).sfcParams = st.sfcParams := by
  simp only [handleClassUsage]
  split <;> rfl

lemma memberExpression_sfcParams (cfg : Config) (m : MemberNode) (st : RState) :
    (memberExpression cfg m st).sfcParams = st.sfcParams := by
  simp only [memberExpression]
  split
  · rw [handleClassUsage_sfcParams]
    split
    · rw [handleSFCUsage_sfcParams]
    · rfl
  · split
    · rw [handleSFCUsage_sfcParams]
    · rfl

lemma vdContextAdd_sfcParams (cfg : Config) (d : DeclNode) (st : RState) :
    (vdContextAdd cfg d st).sfcParams = st.sfcParams := by
  simp only [vdContextAdd]
  split <;> rfl

lemma vdUseContextReport_sfcParams (cfg : Config) (d : DeclNode) (st : RState) :
    (vdUseContextReport cfg d st).sfcParams = st.sfcParams := by
  simp only [vdUseContextReport]
  split <;> rfl

lemma vdSFCReport_sfcParams (cfg : Config) (d : DeclNode) (st : RState) :
    (vdSFCReport cfg d st).sfcParams = st.sfcParams := by
  simp only [vdSFCReport]
  split <;> rfl

lemma vdClassReport_sfcParams (cfg : Config) (d : DeclNode) (st : RState) :
    (vdClassReport cfg d st).sfcParams = st.sfcParams := by
  simp only [vdClassReport]
  split <;> rfl

lemma vdSignatureReport_sfcParams (cfg : Config) (d : DeclNode) (st : RState) :
    (vdSignatureReport cfg d st).sfcParams = st.sfcParams := by
  simp only [vdSignatureReport]
  split
  · cases d.propsRefs with
    | none => rfl
    | some refs => dsimp only; split <;> rfl
  · rfl

lemma variableDeclarator_sfcParams (cfg : Config) (d : DeclNode) (st : RState) :
    (variableDeclarator cfg d st).sfcParams = st.sfcParams := by
  simp only [variableDeclarator, vdSignatureReport_sfcParams, vdClassReport_sfcParams,
    vdSFCReport_sfcParams, vdUseContextReport_sfcParams, vdContextAdd_sfcParams]

lemma step_sfcParams_length (cfg : Config) (ev : Event) (st : RState) :
    (step cfg st ev).sfcParams.length =
      if isTrackedEnter ev then st.sfcParams.length + 1
      else if isTrackedExit ev then st.sfcParams.length - 1
      else st.sfcParams.length := by
  cases ev with
  | funcEnter n =>
      simp only [step, isTrackedEnter, isTrackedExit, handleStatelessComponent_sfcParams]
      cases n.scopeBlockComponent <;> simp
  | funcExit n =>
      by_cases hn : n.scopeBlockComponent = true <;>
        simp [step, handleStatelessComponentExit_sfcParams, isTrackedEnter, isTrackedExit,
          hn, List.length_tail]
  | member m => simp [step, isTrackedEnter, isTrackedExit, memberExpression_sfcParams]
  | varDecl d => simp [step, isTrackedEnter, isTrackedExit, variableDeclarator_sfcParams]

lemma foldl_step_sfcParams_length (cfg : Config) (evs : List Event) (st : RState)
    (h : wellNested st.sfcParams.length evs = true) :
    ((evs.foldl (step cfg) st).sfcParams.length : Int) =
      st.sfcParams.length + evs.countP isTrackedEnter - evs.countP isTrackedExit := by
  induction evs generalizing st with
  | nil => simp
  | cons ev rest ih =>
      rw [List.foldl_cons, List.countP_cons, List.countP_cons]
      have hlen := step_sfcParams_length cfg ev st
      by_cases he : isTrackedEnter ev = true
      · have hwn : wellNested (st.sfcParams.length + 1) rest = true := by
          unfold wellNested at h
          simpa [he] using h
        have := ih (step cfg st ev) (by rw [hlen]; simpa [he] using hwn)
        rw [this, hlen]
        have hx : isTrackedExit ev = false := by
          cases ev <;> simp_all [isTrackedEnter, isTrackedExit]
        simp [he, hx]
        omega
      · by_cases hx : isTrackedExit ev = true
        · have hpos : 0 < st.sfcParams.length ∧
              wellNested (st.sfcParams.length - 1) rest = true := by
            unfold wellNested at h
            simp only [he, hx, if_false, if_true, Bool.false_eq_true, Bool.and_eq_true,
              decide_eq_true_eq] at h
            exact h
          have := ih (step cfg st ev)
            (by rw [hlen]; simpa [he, hx] using hpos.2)
          rw [this, hlen]
          simp [he, hx]
          omega
        · have hwn : wellNested st.sfcParams.length rest = true := by
            unfold wellNested at h
            simpa [he, hx] using h
          have := ih (step cfg st ev) (by rw [hlen]; simpa [he, hx] using hwn)
          rw [this, hlen]
          simp [he, hx]

/-- C6: the enter handler pushes one frame iff the classifier recognises
the scope block as a tracked component, the exit handler pops one frame
iff the same test passes, an enter immediately followed by its exit
restores the stack, and over any well-nested traversal the stack depth
equals the number of tracked enters minus tracked exits (the nesting
depth of currently-open tracked component functions). -/
theorem c6_scope_stack_balance (cfg : Config) (n : FuncNode) (st : RState)
    (evs : List Event) (hwn : wellNested 0 evs = true) :
    (handleStatelessComponent cfg n st).sfcParams.length
        = st.sfcParams.length + (if n.scopeBlockComponent then 1 else 0)
    ∧ (handleStatelessComponentExit n st).sfcParams.length
        = st.sfcParams.length - (if n.scopeBlockComponent then 1 else 0)
    ∧ (handleStatelessComponentExit n (handleStatelessComponent cfg n st)).sfcParams
        = st.sfcParams
    ∧ ((run cfg evs).sfcParams.length : Int)
        = evs.countP isTrackedEnter - evs.countP isTrackedExit := by
  refine ⟨?_, ?_, ?_, ?_⟩
  · rw [handleStatelessComponent_sfcParams]
    cases n.scopeBlockComponent <;> simp
  · rw [handleStatelessComponentExit_sfcParams]
    cases n.scopeBlockComponent <;> simp [List.length_tail]
  · rw [handleStatelessComponentExit_sfcParams, handleStatelessComponent_sfcParams]
    cases n.scopeBlockComponent <;> simp
  · have := foldl_step_sfcParams_length cfg evs initState (by simpa [initState] using hwn)
    simpa [run, initState] using this

/-- C6 witness: a concrete well-nested traversal (a tracked component
containing a non-tracked function) balances the stack. -/
theorem c6_scope_stack_balance_witness :
    (handleStatelessComponent ⟨Mode.always, false, SigOpt.sigIgnore, true⟩
        ⟨1, [ParamNode.identPat "props"], true, true⟩ initState).sfcParams.length
      = initState.sfcParams.length + (if (true : Bool) then 1 else 0)
    ∧ (run ⟨Mode.always, false, SigOpt.sigIgnore, true⟩
        [Event.funcEnter ⟨1, [ParamNode.identPat "props"], true, true⟩,
         Event.funcEnter ⟨2, [], false, false⟩,
         Event.funcExit ⟨2, [], false, false⟩,
         Event.funcExit ⟨1, [ParamNode.identPat "props"], true, true⟩]).sfcParams.length
      = (0 : Int) := by
  have h := c6_scope_stack_balance ⟨Mode.always, false, SigOpt.sigIgnore, true⟩
    ⟨1, [ParamNode.identPat "props"], true, true⟩ initState
    [Event.funcEnter ⟨1, [ParamNode.identPat "props"], true, true⟩,
     Event.funcEnter ⟨2, [], false, false⟩,
     Event.funcExit ⟨2, [], false, false⟩,
     Event.funcExit ⟨1, [ParamNode.identPat "props"], true, true⟩]
    (by decide)
  refine ⟨h.1, ?_⟩
  rw [h.2.2.2]
  decide

/-- Does a report carry the given catalog message id? -/
def hasMsgId (mid : MessageId) (r : Report) : Bool := decide (r.messageId = some mid)

/-- Is a report a `useDestructAssignment` report at the given node? -/
def isUseDestructAt (nid : Nat) (r : Report) : Bool :=
  decide (r.nodeId = nid ∧ r.messageId = some MessageId.useDestructAssignment)

/-- Is parameter `i` of the function, after `evalParams`, a
destructuring pattern? -/
def paramDestructuring (n : FuncNode) (i : Nat) : Bool :=
  match (evalParams n.params)[i]? with
  | some p => p.destructuring
  | none => false

/-- C1 counterexample: a registered component whose first and second
parameters are both destructuring patterns, entered under `never`,
emits only the `noDestructPropsInSFCArg` report — the
`noDestructContextInSFCArg` report claimed for the second parameter is
not emitted, because the second-parameter check sits on the `else`
branch of the first. -/
theorem c1_both_destructured_counterexample :
    paramDestructuring ⟨1, [ParamNode.objectPat, ParamNode.objectPat], true, true⟩ 1 = true
    ∧ ((handleStatelessComponent ⟨Mode.never, false, SigOpt.sigIgnore, true⟩
          ⟨1, [ParamNode.objectPat, ParamNode.objectPat], true, true⟩ initState).reports.countP
        (hasMsgId MessageId.noDestructContextInSFCArg)) = 0
    ∧ ((handleStatelessComponent ⟨Mode.never, false, SigOpt.sigIgnore, true⟩
          ⟨1, [ParamNode.objectPat, ParamNode.objectPat], true, true⟩ initState).reports.countP
        (hasMsgId MessageId.noDestructPropsInSFCArg)) = 1 := by
  decide

/-- C1 (amended): for a registered component entered under `never`, a
destructuring first parameter emits the `noDestructPropsInSFCArg`
report; a destructuring second parameter emits
`noDestructContextInSFCArg` only when the first parameter is not a
destructuring pattern; when both are destructuring patterns, only the
props report is emitted. -/
theorem c1_never_mode_sfc_argument_reports (cfg : Config) (n : FuncNode) (st : RState)
    (hm : cfg.mode = Mode.never) (hs : n.scopeBlockComponent = true)
    (hc : n.selfComponent = true) :
    (paramDestructuring n 0 = true →
      (handleStatelessComponent cfg n st).reports.countP
          (hasMsgId MessageId.noDestructPropsInSFCArg)
        = st.reports.countP (hasMsgId MessageId.noDestructPropsInSFCArg) + 1)
    ∧ (paramDestructuring n 0 = false → paramDestructuring n 1 = true →
      (handleStatelessComponent cfg n st).reports.countP
          (hasMsgId MessageId.noDestructContextInSFCArg)
        = st.reports.countP (hasMsgId MessageId.noDestructContextInSFCArg) + 1)
    ∧ (paramDestructuring n 0 = true →
      (handleStatelessComponent cfg n st).reports.countP
          (hasMsgId MessageId.noDestructContextInSFCArg)
        = st.reports.countP (hasMsgId MessageId.noDestructContextInSFCArg)) := by
  unfold paramDestructuring
  refine ⟨fun h0 => ?_, fun h0 h1 => ?_, fun h0 => ?_⟩
  · simp [handleStatelessComponent, hm, hs, hc, h0, emit, List.countP_append,
      hasMsgId, List.countP_cons]
  · simp [handleStatelessComponent, hm, hs, hc, h0, h1, emit, List.countP_append,
      hasMsgId, List.countP_cons]
  · simp [handleStatelessComponent, hm, hs, hc, h0, emit, List.countP_append,
      hasMsgId, List.countP_cons]

/-- C1 witness: a component with both parameters destructured gets
exactly one props report and no context report. -/
theorem c1_never_mode_sfc_argument_reports_witness :
    ((handleStatelessComponent ⟨Mode.never, false, SigOpt.sigIgnore, true⟩
        ⟨1, [ParamNode.objectPat, ParamNode.objectPat], true, true⟩ initState).reports.countP
      (hasMsgId MessageId.noDestructPropsInSFCArg)) = 1 := by
  have h := c1_never_mode_sfc_argument_reports ⟨Mode.never, false, SigOpt.sigIgnore, true⟩
    ⟨1, [ParamNode.objectPat, ParamNode.objectPat], true, true⟩ initState rfl rfl rfl
  have h1 := h.1 (by decide)
  simpa using h1

lemma handleClassUsage_ident (cfg : Config) (m : MemberNode) (st : RState) (o : String)
    (hobj : m.obj = ObjExpr.ident o) :
    handleClassUsage cfg m st = st := by
  simp [handleClassUsage, hobj]

lemma handleSFCUsage_thisMember (cfg : Config) (m : MemberNode) (st : RState)
    (q : Option String) (hobj : m.obj = ObjExpr.thisMember q) :
    handleSFCUsage cfg m st = st := by
  simp [handleSFCUsage, hobj, objName]

/-- C3: under `always`, a member access inside a tracked SFC scope whose
object identifier equals the current `propsName()` or `contextName()`
and which is not an assignment target gets exactly one
`useDestructAssignment` report at that node. -/
theorem c3_always_mode_sfc_usage_reported (cfg : Config) (m : MemberNode) (st : RState)
    (o : String) (hm : cfg.mode = Mode.always)
    (hchain : true ∈ m.scopeChainComponents)
    (hobj : m.obj = ObjExpr.ident o)
    (hname : propsName st.sfcParams = some o ∨ contextName st.sfcParams = some o)
    (hlhs : m.isAssignLHS = false) :
    (memberExpression cfg m st).reports.countP (isUseDestructAt m.nodeId)
      = st.reports.countP (isUseDestructAt m.nodeId) + 1 := by
  have hsfc : m.scopeChainComponents.any (fun b => b) = true := by
    rw [List.any_eq_true]
    exact ⟨true, hchain, rfl⟩
  have hclass : ∀ st2 : RState, (if m.classComponent then handleClassUsage cfg m st2 else st2)
      = st2 := by
    intro st2
    rw [handleClassUsage_ident cfg m st2 o hobj, ite_self]
  rw [memberExpression]
  simp only [hsfc, if_true]
  rw [hclass]
  rcases hname with hp | hp <;>
    simp only [handleSFCUsage, hobj, objName, hp, hlhs] <;>
    · simp only [hm, beq_self_eq_true, Bool.not_false, Bool.and_true, Bool.true_or,
        Bool.or_true, Bool.true_and, if_true]
      split <;>
        simp [emit, List.countP_append, isUseDestructAt, List.countP_cons]

/-- C3 witness: `function Comp(props) { return props.x; }` under
`always` — the access to `props.x` is reported once. -/
theorem c3_always_mode_sfc_usage_reported_witness :
    (memberExpression ⟨Mode.always, false, SigOpt.sigIgnore, true⟩
        ⟨7, ObjExpr.ident "props", false, [true], false, []⟩
        ⟨[[⟨false, some "props"⟩]], [], []⟩).reports.countP (isUseDestructAt 7)
      = ([] : List Report).countP (isUseDestructAt 7) + 1 :=
  c3_always_mode_sfc_usage_reported ⟨Mode.always, false, SigOpt.sigIgnore, true⟩
    ⟨7, ObjExpr.ident "props", false, [true], false, []⟩
    ⟨[[⟨false, some "props"⟩]], [], []⟩ "props" rfl (by decide) rfl
    (Or.inl (by decide)) rfl

/-- C4: a non-assignment-target access of the form `this.props.x`
(`this.context.x` / `this.state.x`) inside a class component is
reported under `always` unless `ignoreClassFields` is set and the
access is inside a class field; under `never` this form emits no
report. -/
theorem c4_class_usage_reports (cfg : Config) (m : MemberNode) (st : RState) (p : String)
    (hobj : m.obj = ObjExpr.thisMember (some p))
    (hp : p = "props" ∨ p = "context" ∨ p = "state")
    (hclass : m.classComponent = true)
    (hlhs : m.isAssignLHS = false) :
    (cfg.mode = Mode.always →
        (cfg.ignoreClassFields && isInClassProperty m.ancestorTypes) = false →
      (memberExpression cfg m st).reports
        = st.reports ++ [⟨m.nodeId, some MessageId.useDestructAssignment,
            "Must use destructuring \x7b\x7btype\x7d\x7d assignment", some p, none⟩])
    ∧ (cfg.mode = Mode.always →
        (cfg.ignoreClassFields && isInClassProperty m.ancestorTypes) = true →
      (memberExpression cfg m st).reports = st.reports)
    ∧ (cfg.mode = Mode.never →
      (memberExpression cfg m st).reports = st.reports) := by
  have hstep : memberExpression cfg m st = handleClassUsage cfg m st := by
    rw [memberExpression]
    simp only [hclass, if_true]
    rw [handleSFCUsage_thisMember cfg m st (some p) hobj, ite_self]
  have hused : (p == "props" || p == "context" || p == "state") = true := by
    rcases hp with h | h | h <;> simp [h]
  refine ⟨fun hm hic => ?_, fun hm hic => ?_, fun hm => ?_⟩
  · rw [hstep]
    simp [handleClassUsage, hobj, hlhs, hm, hic, hused, emit]
  · rw [hstep]
    simp [handleClassUsage, hobj, hlhs, hm, hic, hused, emit]
  · rw [hstep]
    simp [handleClassUsage, hobj, hlhs, hm, hused, emit]

/-- C4 witness: `this.props.x` in a render method under `always` with
`ignoreClassFields` unset is reported; the same access under `never` is
not. -/
theorem c4_class_usage_reports_witness :
    ((memberExpression ⟨Mode.always, false, SigOpt.sigIgnore, true⟩
        ⟨9, ObjExpr.thisMember (some "props"), false, [], true, ["MethodDefinition"]⟩
        initState).reports
      = initState.reports ++ [⟨9, some MessageId.useDestructAssignment,
          "Must use destructuring \x7b\x7btype\x7d\x7d assignment", some "props", none⟩])
    ∧ ((memberExpression ⟨Mode.never, false, SigOpt.sigIgnore, true⟩
        ⟨9, ObjExpr.thisMember (some "props"), false, [], true, ["MethodDefinition"]⟩
        initState).reports = initState.reports) := by
  constructor
  · exact (c4_class_usage_reports ⟨Mode.always, false, SigOpt.sigIgnore, true⟩
      ⟨9, ObjExpr.thisMember (some "props"), false, [], true, ["MethodDefinition"]⟩
      initState "props" rfl (Or.inl rfl) rfl rfl).1 rfl (by decide)
  · exact (c4_class_usage_reports ⟨Mode.never, false, SigOpt.sigIgnore, true⟩
      ⟨9, ObjExpr.thisMember (some "props"), false, [], true, ["MethodDefinition"]⟩
      initState "props" rfl (Or.inl rfl) rfl rfl).2.2 rfl

lemma handleStatelessComponent_contextSet (cfg : Config) (n : FuncNode) (st : RState) :
    (handleStatelessComponent cfg n st).contextSet = st.contextSet := by
  unfold handleStatelessComponent
  cases hn : n.scopeBlockComponent
  · simp [hn]
  · simp only [hn, Bool.not_true, Bool.false_eq_true, if_false, if_true]
    split
    · rfl
    · split <;> rfl

lemma handleStatelessComponentExit_contextSet (n : FuncNode) (st : RState) :
    (handleStatelessComponentExit n st).contextSet = st.contextSet := by
  unfold handleStatelessComponentExit
  split <;> rfl

lemma handleSFCUsage_contextSet (cfg : Config) (m : MemberNode) (st : RState) :
    (handleSFCUsage cfg m st).contextSet = st.contextSet := by
  simp only [handleSFCUsage]
  split
  · split <;> split <;> rfl
  · split <;> rfl

lemma handleClassUsage_contextSet (cfg : Config) (m : MemberNode) (st : RState) :
    (handleClassUsage cfg m st).contextSet = st.contextSet := by
  simp only [handleClassUsage]
  split <;> rfl

lemma memberExpression_contextSet (cfg : Config) (m : MemberNode) (st : RState) :
    (memberExpression cfg m st).contextSet = st.contextSet := by
  simp only [memberExpression]
  split
  · rw [handleClassUsage_contextSet]
    split
    · rw [handleSFCUsage_contextSet]
    · rfl
  · split
    · rw [handleSFCUsage_contextSet]
    · rfl

lemma vdUseContextReport_contextSet (cfg : Config) (d : DeclNode) (st : RState) :
    (vdUseContextReport cfg d st).contextSet = st.contextSet := by
  simp only [vdUseContextReport]
  split <;> rfl

lemma vdSFCReport_contextSet (cfg : Config) (d : DeclNode) (st : RState) :
    (vdSFCReport cfg d st).contextSet = st.contextSet := by
  simp only [vdSFCReport]
  split <;> rfl

lemma vdClassReport_contextSet (cfg : Config) (d : DeclNode) (st : RState) :
    (vdClassReport cfg d st).contextSet = st.contextSet := by
  simp only [vdClassReport]
  split <;> rfl

lemma vdSignatureReport_contextSet (cfg : Config) (d : DeclNode) (st : RState) :
    (vdSignatureReport cfg d st).contextSet = st.contextSet := by
  simp only [vdSignatureReport]
  split
  · cases d.propsRefs with
    | none => rfl
    | some refs => dsimp only; split <;> rfl
  · rfl

/-- The `VariableDeclarator` visitor changes `contextSet` exactly as its
first step (`contextSet.add`) does; the four report steps never touch it. -/
lemma variableDeclarator_contextSet (cfg : Config) (d : DeclNode) (st : RState) :
    (variableDeclarator cfg d st).contextSet = (vdContextAdd cfg d st).contextSet := by
  simp only [variableDeclarator, vdSignatureReport_contextSet, vdClassReport_contextSet,
    vdSFCReport_contextSet, vdUseContextReport_contextSet]

/-- C2: a declarator `const {…} = props` in an SFC component under
`always` with `destructureInSignature: 'always'` emits exactly one
`destructureInSignature` report when the `props` binding has at most one
reference, with the fix replacing the first parameter up to its type
annotation by the pattern text and removing the declaration; with more
than one reference, nothing is emitted. -/
theorem c2_destructure_in_signature (cfg : Config) (d : DeclNode) (st : RState)
    (txt : String) (k : Nat) (pr : ParamRange)
    (hsfc : d.sfcComponent = true)
    (hid : d.idPat = IdPat.objectPattern txt)
    (hinit : d.init = some (InitExpr.ident "props"))
    (hm : cfg.mode = Mode.always)
    (hds : cfg.destructureInSignature = SigOpt.sigAlways)
    (href : d.propsRefs = some k) :
    (k ≤ 1 → d.componentFirstParam = some pr →
      (variableDeclarator cfg d st).reports
        = st.reports ++ [⟨d.nodeId, some MessageId.destructureInSignature,
            "Must destructure props in the function signature.", none,
            some [Edit.replaceRange pr.start
                    (match pr.typeAnnStart with | some t => t | none => pr.stop) txt,
                  Edit.removeNode d.parentId]⟩])
    ∧ (k > 1 → (variableDeclarator cfg d st).reports = st.reports) := by
  have h1 : ∀ s : RState, vdContextAdd cfg d s = s := by
    intro s
    simp [vdContextAdd, vdAssignUseContext, vdIdentifier, hid]
  have h2 : ∀ s : RState, vdUseContextReport cfg d s = s := by
    intro s
    simp [vdUseContextReport, vdDestructuringUseContext, initCalleeName, hinit]
  have h3 : ∀ s : RState, vdSFCReport cfg d s = s := by
    intro s
    simp [vdSFCReport, hm]
  have h4 : ∀ s : RState, vdClassReport cfg d s = s := by
    intro s
    simp [vdClassReport, hm]
  have hvd : variableDeclarator cfg d st = vdSignatureReport cfg d st := by
    rw [variableDeclarator, h1, h2, h3, h4]
  constructor
  · intro hk hparam
    have hk2 : ¬ (k > 1) := by omega
    rw [hvd]
    simp [vdSignatureReport, hsfc, hm, hds, hinit, vdDestructuringSFC, vdDestructuring,
      hid, href, hk2, vdSignatureFix, hparam, emit]
  · intro hk
    rw [hvd]
    simp [vdSignatureReport, hsfc, hm, hds, hinit, vdDestructuringSFC, vdDestructuring,
      hid, href, hk]

/-- C2 witness: `const {foo} = props` with one `props` reference and a
first parameter spanning offsets 14–19 — one report with the rewrite;
the same declarator with two references — no report. -/
theorem c2_destructure_in_signature_witness :
    ((variableDeclarator ⟨Mode.always, false, SigOpt.sigAlways, true⟩
        ⟨3, 2, IdPat.objectPattern "\x7bfoo\x7d", some (InitExpr.ident "props"),
          true, false, false, some 1, some ⟨14, 19, none⟩⟩ initState).reports
      = initState.reports ++ [⟨3, some MessageId.destructureInSignature,
          "Must destructure props in the function signature.", none,
          some [Edit.replaceRange 14 19 "\x7bfoo\x7d", Edit.removeNode 2]⟩])
    ∧ ((variableDeclarator ⟨Mode.always, false, SigOpt.sigAlways, true⟩
        ⟨3, 2, IdPat.objectPattern "\x7bfoo\x7d", some (InitExpr.ident "props"),
          true, false, false, some 2, some ⟨14, 19, none⟩⟩ initState).reports
      = initState.reports) := by
  constructor
  · exact (c2_destructure_in_signature ⟨Mode.always, false, SigOpt.sigAlways, true⟩
      ⟨3, 2, IdPat.objectPattern "\x7bfoo\x7d", some (InitExpr.ident "props"),
        true, false, false, some 1, some ⟨14, 19, none⟩⟩ initState
      "\x7bfoo\x7d" 1 ⟨14, 19, none⟩ rfl rfl rfl rfl rfl rfl).1 (by decide) rfl
  · exact (c2_destructure_in_signature ⟨Mode.always, false, SigOpt.sigAlways, true⟩
      ⟨3, 2, IdPat.objectPattern "\x7bfoo\x7d", some (InitExpr.ident "props"),
        true, false, false, some 2, some ⟨14, 19, none⟩⟩ initState
      "\x7bfoo\x7d" 2 ⟨14, 19, none⟩ rfl rfl rfl rfl rfl rfl).2 (by decide)

lemma handleStatelessComponent_reports_mem (cfg : Config) (n : FuncNode) (st : RState)
    (r : Report) (h : r ∈ (handleStatelessComponent cfg n st).reports) :
    r ∈ st.reports ∨ r.messageId = some MessageId.noDestructPropsInSFCArg
      ∨ r.messageId = some MessageId.noDestructContextInSFCArg := by
  simp only [handleStatelessComponent] at h
  split at h
  · exact Or.inl h
  · split at h
    · simp only [emit, List.mem_append, List.mem_singleton] at h
      rcases h with h | h
      · exact Or.inl h
      · subst h
        simp
    · split at h
      · simp only [emit, List.mem_append, List.mem_singleton] at h
        rcases h with h | h
        · exact Or.inl h
        · subst h
          simp
      · exact Or.inl h

lemma handleSFCUsage_reports_mem (cfg : Config) (m : MemberNode) (st : RState)
    (r : Report) (h : r ∈ (handleSFCUsage cfg m st).reports) :
    r ∈ st.reports ∨ r.messageId = some MessageId.useDestructAssignment
      ∨ ∃ o, st.contextSet.contains o = true ∧ r.nodeId = m.nodeId ∧ r.messageId = none
          ∧ r.message = "Must use destructuring " ++ o ++ " assignment" := by
  simp only [handleSFCUsage] at h
  split at h
  case h_1 x o ho =>
    split at h
    case isTrue hprop =>
      split at h
      case isTrue hcond =>
        have hc : st.contextSet.contains o = true := by
          simp only [Bool.and_eq_true] at hcond
          exact hcond.1.1
        simp only [emit, List.mem_append, List.mem_singleton] at h
        rcases h with (h | h) | h
        · exact Or.inl h
        · subst h
          simp
        · subst h
          exact Or.inr (Or.inr ⟨o, hc, rfl, rfl, rfl⟩)
      case isFalse =>
        simp only [emit, List.mem_append, List.mem_singleton] at h
        rcases h with h | h
        · exact Or.inl h
        · subst h
          simp
    case isFalse =>
      split at h
      case isTrue hcond =>
        have hc : st.contextSet.contains o = true := by
          simp only [Bool.and_eq_true] at hcond
          exact hcond.1.1
        simp only [emit, List.mem_append, List.mem_singleton] at h
        rcases h with h | h
        · exact Or.inl h
        · subst h
          exact Or.inr (Or.inr ⟨o, hc, rfl, rfl, rfl⟩)
      case isFalse => exact Or.inl h
  case h_2 =>
    split at h
    · simp only [emit, List.mem_append, List.mem_singleton] at h
      rcases h with h | h
      · exact Or.inl h
      · subst h
        simp
    · exact Or.inl h

lemma handleClassUsage_reports_mem (cfg : Config) (m : MemberNode) (st : RState)
    (r : Report) (h : r ∈ (handleClassUsage cfg m st).reports) :
    r ∈ st.reports ∨ r.messageId = some MessageId.useDestructAssignment := by
  simp only [handleClassUsage] at h
  split at h
  · simp only [emit, List.mem_append, List.mem_singleton] at h
    rcases h with h | h
    · exact Or.inl h
    · subst h
      simp
  · exact Or.inl h

lemma memberExpression_reports_mem (cfg : Config) (m : MemberNode) (st : RState)
    (r : Report) (h : r ∈ (memberExpression cfg m st).reports) :
    r ∈ st.reports ∨ r.messageId = some MessageId.useDestructAssignment
      ∨ ∃ o, st.contextSet.contains o = true ∧ r.nodeId = m.nodeId ∧ r.messageId = none
          ∧ r.message = "Must use destructuring " ++ o ++ " assignment" := by
  simp only [memberExpression] at h
  have hsfc : ∀ r' : Report,
      r' ∈ (if (m.scopeChainComponents.any fun b => b) = true
              then handleSFCUsage cfg m st else st).reports →
      r' ∈ st.reports ∨ r'.messageId = some MessageId.useDestructAssignment
        ∨ ∃ o, st.contextSet.contains o = true ∧ r'.nodeId = m.nodeId ∧ r'.messageId = none
            ∧ r'.message = "Must use destructuring " ++ o ++ " assignment" := by
    intro r' h'
    split at h'
    · exact handleSFCUsage_reports_mem cfg m st r' h'
    · exact Or.inl h'
  split at h
  · rcases handleClassUsage_reports_mem cfg m _ r h with h' | h'
    · exact hsfc r h'
    · exact Or.inr (Or.inl h')
  · exact hsfc r h

lemma vdContextAdd_reports (cfg : Config) (d : DeclNode) (st : RState) :
    (vdContextAdd cfg d st).reports = st.reports := by
  simp only [vdContextAdd]
  split <;> rfl

lemma vdUseContextReport_reports_mem (cfg : Config) (d : DeclNode) (st : RState)
    (r : Report) (h : r ∈ (vdUseContextReport cfg d st).reports) :
    r ∈ st.reports ∨ (cfg.hasHooks = true ∧ r.messageId = none
      ∧ ∃ c, r.message = "Must never use destructuring " ++ c ++ " assignment") := by
  simp only [vdUseContextReport] at h
  split at h
  case isTrue hcond =>
    have hh : cfg.hasHooks = true := by
      simp only [vdDestructuringUseContext, Bool.and_eq_true] at hcond
      exact hcond.1.2.1.1
    simp only [emit, List.mem_append, List.mem_singleton] at h
    rcases h with h | h
    · exact Or.inl h
    · subst h
      exact Or.inr ⟨hh, rfl, (initCalleeName d.init).getD "", rfl⟩
  case isFalse => exact Or.inl h

lemma vdSFCReport_reports_mem (cfg : Config) (d : DeclNode) (st : RState)
    (r : Report) (h : r ∈ (vdSFCReport cfg d st).reports) :
    r ∈ st.reports ∨ r.messageId = some MessageId.noDestructAssignment := by
  simp only [vdSFCReport] at h
  split at h
  · simp only [emit, List.mem_append, List.mem_singleton] at h
    rcases h with h | h
    · exact Or.inl h
    · subst h
      simp
  · exact Or.inl h

lemma vdClassReport_reports_mem (cfg : Config) (d : DeclNode) (st : RState)
    (r : Report) (h : r ∈ (vdClassReport cfg d st).reports) :
    r ∈ st.reports ∨ r.messageId = some MessageId.noDestructAssignment := by
  simp only [vdClassReport] at h
  split at h
  · simp only [emit, List.mem_append, List.mem_singleton] at h
    rcases h with h | h
    · exact Or.inl h
    · subst h
      simp
  · exact Or.inl h

lemma vdSignatureReport_reports_mem (cfg : Config) (d : DeclNode) (st : RState)
    (r : Report) (h : r ∈ (vdSignatureReport cfg d st).reports) :
    r ∈ st.reports ∨ r.messageId = some MessageId.destructureInSignature := by
  simp only [vdSignatureReport] at h
  split at h
  · cases href : d.propsRefs with
    | none =>
        rw [href] at h
        exact Or.inl h
    | some refs =>
        rw [href] at h
        dsimp only at h
        split at h
        · exact Or.inl h
        · simp only [emit, List.mem_append, List.mem_singleton] at h
          rcases h with h | h
          · exact Or.inl h
          · subst h
            simp
  · exact Or.inl h

lemma variableDeclarator_reports_mem (cfg : Config) (d : DeclNode) (st : RState)
    (r : Report) (h : r ∈ (variableDeclarator cfg d st).reports) :
    r ∈ st.reports ∨ r.messageId = some MessageId.noDestructAssignment
      ∨ r.messageId = some MessageId.destructureInSignature
      ∨ (cfg.hasHooks = true ∧ r.messageId = none
          ∧ ∃ c, r.message = "Must never use destructuring " ++ c ++ " assignment") := by
  rw [variableDeclarator] at h
  rcases vdSignatureReport_reports_mem cfg d _ r h with h | h
  · rcases vdClassReport_reports_mem cfg d _ r h with h | h
    · rcases vdSFCReport_reports_mem cfg d _ r h with h | h
      · rcases vdUseContextReport_reports_mem cfg d _ r h with h | h
        · rw [vdContextAdd_reports] at h
          exact Or.inl h
        · exact Or.inr (Or.inr (Or.inr h))
      · exact Or.inr (Or.inl h)
    · exact Or.inr (Or.inl h)
  · exact Or.inr (Or.inr (Or.inl h))

lemma handleStatelessComponentExit_reports (n : FuncNode) (st : RState) :
    (handleStatelessComponentExit n st).reports = st.reports := by
  unfold handleStatelessComponentExit
  split <;> rfl

lemma vdContextAdd_noHooks (cfg : Config) (d : DeclNode) (st : RState)
    (hh : cfg.hasHooks = false) : vdContextAdd cfg d st = st := by
  simp [vdContextAdd, vdAssignUseContext, hh]

lemma run_noHooks_invariant (cfg : Config) (hh : cfg.hasHooks = false) (evs : List Event) :
    ∀ st : RState, st.contextSet = [] → (∀ r ∈ st.reports, r.messageId.isSome = true) →
      (evs.foldl (step cfg) st).contextSet = []
      ∧ ∀ r ∈ (evs.foldl (step cfg) st).reports, r.messageId.isSome = true := by
  induction evs with
  | nil => exact fun st h1 h2 => ⟨h1, h2⟩
  | cons ev rest ih =>
      intro st h1 h2
      rw [List.foldl_cons]
      apply ih
      · cases ev with
        | funcEnter n => rw [show step cfg st (Event.funcEnter n)
              = handleStatelessComponent cfg n st from rfl,
            handleStatelessComponent_contextSet]; exact h1
        | funcExit n => rw [show step cfg st (Event.funcExit n)
              = handleStatelessComponentExit n st from rfl,
            handleStatelessComponentExit_contextSet]; exact h1
        | member m => rw [show step cfg st (Event.member m)
              = memberExpression cfg m st from rfl,
            memberExpression_contextSet]; exact h1
        | varDecl d => rw [show step cfg st (Event.varDecl d)
              = variableDeclarator cfg d st from rfl,
            variableDeclarator_contextSet, vdContextAdd_noHooks cfg d st hh]; exact h1
      · intro r hr
        cases ev with
        | funcEnter n =>
            rcases handleStatelessComponent_reports_mem cfg n st r hr with h | h | h
            · exact h2 r h
            · simp [h]
            · simp [h]
        | funcExit n =>
            rw [show step cfg st (Event.funcExit n)
                = handleStatelessComponentExit n st from rfl,
              handleStatelessComponentExit_reports] at hr
            exact h2 r hr
        | member m =>
            rcases memberExpression_reports_mem cfg m st r hr with h | h | ⟨o, hc, _, _, _⟩
            · exact h2 r h
            · simp [h]
            · rw [h1] at hc
              exact absurd hc (by simp)
        | varDecl d =>
            rcases variableDeclarator_reports_mem cfg d st r hr with h | h | h | ⟨hht, _, _⟩
            · exact h2 r h
            · simp [h]
            · simp [h]
            · rw [hh] at hht
              exact absurd hht (by simp)

/-- C8: when the React version predicate answers that hooks are not
available, a declarator never changes `contextSet`; over a whole
traversal, `contextSet` stays empty and every emitted report carries a
catalog message id — in particular neither the inline never-mode
`useContext` report nor the context-identifier-set member report (the
two key-less reports) is ever emitted. -/
theorem c8_no_hooks_context_patterns (cfg : Config) (d : DeclNode) (st : RState)
    (evs : List Event) (hh : cfg.hasHooks = false) :
    (variableDeclarator cfg d st).contextSet = st.contextSet
    ∧ (run cfg evs).contextSet = []
    ∧ ∀ r ∈ (run cfg evs).reports, r.messageId.isSome = true := by
  refine ⟨?_, ?_, ?_⟩
  · rw [variableDeclarator_contextSet, vdContextAdd_noHooks cfg d st hh]
  · exact (run_noHooks_invariant cfg hh evs initState rfl (by simp [initState])).1
  · exact (run_noHooks_invariant cfg hh evs initState rfl (by simp [initState])).2

/-- C8 witness: with hooks unavailable, `const {x} = useContext(C)` and
`const foo = useContext(C)` inside an SFC component under `never` leave
the context set empty and emit no key-less report. -/
theorem c8_no_hooks_context_patterns_witness :
    (variableDeclarator ⟨Mode.never, false, SigOpt.sigIgnore, false⟩
        ⟨1, 0, IdPat.objectPattern "\x7bx\x7d", some (InitExpr.call (some "useContext")),
          true, false, false, none, none⟩ initState).contextSet = initState.contextSet
    ∧ (run ⟨Mode.never, false, SigOpt.sigIgnore, false⟩
        [Event.varDecl ⟨1, 0, IdPat.objectPattern "\x7bx\x7d",
            some (InitExpr.call (some "useContext")), true, false, false, none, none⟩,
         Event.varDecl ⟨2, 0, IdPat.identifier "foo",
            some (InitExpr.call (some "useContext")), true, false, false, none, none⟩]).contextSet
      = []
    ∧ ∀ r ∈ (run ⟨Mode.never, false, SigOpt.sigIgnore, false⟩
        [Event.varDecl ⟨1, 0, IdPat.objectPattern "\x7bx\x7d",
            some (InitExpr.call (some "useContext")), true, false, false, none, none⟩,
         Event.varDecl ⟨2, 0, IdPat.identifier "foo",
            some (InitExpr.call (some "useContext")), true, false, false, none, none⟩]).reports,
        r.messageId.isSome = true :=
  c8_no_hooks_context_patterns ⟨Mode.never, false, SigOpt.sigIgnore, false⟩
    ⟨1, 0, IdPat.objectPattern "\x7bx\x7d", some (InitExpr.call (some "useContext")),
      true, false, false, none, none⟩ initState
    [Event.varDecl ⟨1, 0, IdPat.objectPattern "\x7bx\x7d",
        some (InitExpr.call (some "useContext")), true, false, false, none, none⟩,
     Event.varDecl ⟨2, 0, IdPat.identifier "foo",
        some (InitExpr.call (some "useContext")), true, false, false, none, none⟩] rfl

/-- C9 counterexample: under `never` with hooks available, the
declarator `const {x} = useContext(C)` in an SFC component makes the
rule emit a report through the inline `context.report` call, which
carries no message key from the catalog (its `messageId` is absent) —
so not every report carries a catalog key. -/
theorem c9_keyless_report_counterexample :
    ((run ⟨Mode.never, false, SigOpt.sigIgnore, true⟩
        [Event.varDecl ⟨1, 0, IdPat.objectPattern "\x7bx\x7d",
            some (InitExpr.call (some "useContext")), true, false, false, none, none⟩]).reports.map
      (fun r => r.messageId)) = [none] := by
  decide

lemma run_reports_catalog_invariant (cfg : Config) (evs : List Event) :
    ∀ st : RState,
      (∀ r ∈ st.reports, r.messageId.isSome = true
        ∨ ∃ n, r.message = "Must use destructuring " ++ n ++ " assignment"
            ∨ r.message = "Must never use destructuring " ++ n ++ " assignment") →
      ∀ r ∈ (evs.foldl (step cfg) st).reports, r.messageId.isSome = true
        ∨ ∃ n, r.message = "Must use destructuring " ++ n ++ " assignment"
            ∨ r.message = "Must never use destructuring " ++ n ++ " assignment" := by
  induction evs with
  | nil => exact fun st h => h
  | cons ev rest ih =>
      intro st h
      rw [List.foldl_cons]
      apply ih
      intro r hr
      cases ev with
      | funcEnter n =>
          rcases handleStatelessComponent_reports_mem cfg n st r hr with h1 | h1 | h1
          · exact h r h1
          · exact Or.inl (by simp [h1])
          · exact Or.inl (by simp [h1])
      | funcExit n =>
          rw [show step cfg st (Event.funcExit n) = handleStatelessComponentExit n st from rfl,
            handleStatelessComponentExit_reports] at hr
          exact h r hr
      | member m =>
          rcases memberExpression_reports_mem cfg m st r hr with h1 | h1 | ⟨o, _, _, _, h1⟩
          · exact h r h1
          · exact Or.inl (by simp [h1])
          · exact Or.inr ⟨o, Or.inl h1⟩
      | varDecl d =>
          rcases variableDeclarator_reports_mem cfg d st r hr with h1 | h1 | h1 | ⟨_, _, c, h1⟩
          · exact h r h1
          · exact Or.inl (by simp [h1])
          · exact Or.inl (by simp [h1])
          · exact Or.inr ⟨c, Or.inr h1⟩

/-- C9 (amended): every report emitted through the keyed `report`
helper carries a message id from the fixed catalog; the only exceptions
are the two inline `context.report` calls for context values, whose
reports carry no key and whose message text is of the form
"Must use destructuring NAME assignment" or
"Must never use destructuring NAME assignment". -/
theorem c9_reports_catalog_or_inline (cfg : Config) (evs : List Event) (r : Report)
    (h : r ∈ (run cfg evs).reports) :
    r.messageId.isSome = true
    ∨ ∃ n, r.message = "Must use destructuring " ++ n ++ " assignment"
        ∨ r.message = "Must never use destructuring " ++ n ++ " assignment" :=
  run_reports_catalog_invariant cfg evs initState (by simp [initState]) r h

/-- C9 witness: the key-less report of the inline never-mode
`useContext` check still has the inline message form. -/
theorem c9_reports_catalog_or_inline_witness :
    (⟨1, none, "Must never use destructuring useContext assignment", none, none⟩ :
        Report).messageId.isSome = true
    ∨ ∃ n, (⟨1, none, "Must never use destructuring useContext assignment", none, none⟩ :
          Report).message = "Must use destructuring " ++ n ++ " assignment"
        ∨ (⟨1, none, "Must never use destructuring useContext assignment", none, none⟩ :
          Report).message = "Must never use destructuring " ++ n ++ " assignment" :=
  c9_reports_catalog_or_inline ⟨Mode.never, false, SigOpt.sigIgnore, true⟩
    [Event.varDecl ⟨1, 0, IdPat.objectPattern "\x7bx\x7d",
        some (InitExpr.call (some "useContext")), true, false, false, none, none⟩]
    ⟨1, none, "Must never use destructuring useContext assignment", none, none⟩
    (by decide)

lemma vdContextAdd_mono (cfg : Config) (d : DeclNode) (st : RState) (x : String)
    (hx : x ∈ st.contextSet) : x ∈ (vdContextAdd cfg d st).contextSet := by
  simp only [vdContextAdd]
  split
  · dsimp only
    split
    case h_1 =>
      split
      · exact hx
      · exact List.mem_cons_of_mem _ hx
    case h_2 => exact hx
  · exact hx

lemma step_contextSet_mono (cfg : Config) (ev : Event) (st : RState) (x : String)
    (hx : x ∈ st.contextSet) : x ∈ (step cfg st ev).contextSet := by
  cases ev with
  | funcEnter n => rw [show step cfg st (Event.funcEnter n)
        = handleStatelessComponent cfg n st from rfl, handleStatelessComponent_contextSet]
                   exact hx
  | funcExit n => rw [show step cfg st (Event.funcExit n)
        = handleStatelessComponentExit n st from rfl, handleStatelessComponentExit_contextSet]
                  exact hx
  | member m => rw [show step cfg st (Event.member m)
        = memberExpression cfg m st from rfl, memberExpression_contextSet]
                exact hx
  | varDecl d => rw [show step cfg st (Event.varDecl d)
        = variableDeclarator cfg d st from rfl, variableDeclarator_contextSet]
                 exact vdContextAdd_mono cfg d st x hx

lemma foldl_contextSet_mono (cfg : Config) (evs : List Event) :
    ∀ (st : RState) (x : String), x ∈ st.contextSet →
      x ∈ (evs.foldl (step cfg) st).contextSet := by
  induction evs with
  | nil => exact fun st x hx => hx
  | cons ev rest ih =>
      intro st x hx
      rw [List.foldl_cons]
      exact ih (step cfg st ev) x (step_contextSet_mono cfg ev st x hx)

/-- C10: the context identifier set only grows — every traversal event
preserves its members (exiting a component never removes a name), the
insertion made by a declarator is independent of the configured mode,
and once a name is in the set, a later non-assignment member access on
an object of that name inside a tracked SFC scope is reported (by the
inline key-less report) under `always`. -/
theorem c10_context_set_grows (cfg : Config) (ev : Event) (evs : List Event)
    (st : RState) (x : String) (d : DeclNode) (m : MemberNode) (o : String) (m2 : Mode)
    (hx : x ∈ st.contextSet)
    (hc : st.contextSet.contains o = true)
    (hm : cfg.mode = Mode.always)
    (hobj : m.obj = ObjExpr.ident o)
    (hlhs : m.isAssignLHS = false)
    (hchain : true ∈ m.scopeChainComponents) :
    x ∈ (step cfg st ev).contextSet
    ∧ x ∈ (evs.foldl (step cfg) st).contextSet
    ∧ (variableDeclarator { cfg with mode := m2 } d st).contextSet
        = (variableDeclarator cfg d st).contextSet
    ∧ (⟨m.nodeId, none, "Must use destructuring " ++ o ++ " assignment", none, none⟩ :
        Report) ∈ (memberExpression cfg m st).reports := by
  refine ⟨step_contextSet_mono cfg ev st x hx, foldl_contextSet_mono cfg evs st x hx, ?_, ?_⟩
  · rw [variableDeclarator_contextSet, variableDeclarator_contextSet]
    rfl
  · have hsfc : (m.scopeChainComponents.any fun b => b) = true :=
      List.any_eq_true.mpr ⟨true, hchain, rfl⟩
    rw [memberExpression]
    simp only [hsfc, if_true]
    have hcu : ∀ s : RState, (if m.classComponent = true then handleClassUsage cfg m s else s)
        = s := by
      intro s
      rw [handleClassUsage_ident cfg m s o hobj, ite_self]
    rw [hcu]
    simp only [handleSFCUsage, hobj, objName, hlhs, hm, apply_ite RState.contextSet,
      emit_contextSet, ite_self, hc]
    simp [emit]

/-- C10 witness: with "foo" already recorded, a member event, a
traversal, a mode flip and a read access `foo.value` under `always`. -/
theorem c10_context_set_grows_witness :
    "foo" ∈ (step ⟨Mode.always, false, SigOpt.sigIgnore, true⟩
        ⟨[], ["foo"], []⟩ (Event.member ⟨4, ObjExpr.ident "foo", false, [true], false, []⟩)).contextSet
    ∧ "foo" ∈ ([Event.member ⟨4, ObjExpr.ident "foo", false, [true], false, []⟩].foldl
        (step ⟨Mode.always, false, SigOpt.sigIgnore, true⟩) ⟨[], ["foo"], []⟩).contextSet
    ∧ (variableDeclarator { (⟨Mode.always, false, SigOpt.sigIgnore, true⟩ : Config) with
          mode := Mode.never }
        ⟨2, 0, IdPat.identifier "bar", some (InitExpr.call (some "useContext")),
          true, false, false, none, none⟩ ⟨[], ["foo"], []⟩).contextSet
      = (variableDeclarator ⟨Mode.always, false, SigOpt.sigIgnore, true⟩
        ⟨2, 0, IdPat.identifier "bar", some (InitExpr.call (some "useContext")),
          true, false, false, none, none⟩ ⟨[], ["foo"], []⟩).contextSet
    ∧ (⟨4, none, "Must use destructuring " ++ "foo" ++ " assignment", none, none⟩ :
        Report) ∈ (memberExpression ⟨Mode.always, false, SigOpt.sigIgnore, true⟩
        ⟨4, ObjExpr.ident "foo", false, [true], false, []⟩ ⟨[], ["foo"], []⟩).reports :=
  c10_context_set_grows ⟨Mode.always, false, SigOpt.sigIgnore, true⟩
    (Event.member ⟨4, ObjExpr.ident "foo", false, [true], false, []⟩)
    [Event.member ⟨4, ObjExpr.ident "foo", false, [true], false, []⟩]
    ⟨[], ["foo"], []⟩ "foo"
    ⟨2, 0, IdPat.identifier "bar", some (InitExpr.call (some "useContext")),
      true, false, false, none, none⟩
    ⟨4, ObjExpr.ident "foo", false, [true], false, []⟩ "foo" Mode.never
    (by decide) (by decide) rfl rfl rfl (by decide)

end DestructuringAssignment
